import Mathlib

/-!
Shallow embedding of `src/app.py` (FastAPI sensor-stats service with a
memoizing result cache), and verification of its specification claims.

Machine floats (`float64` values in the pandas dataframe) are modelled by
exact rationals (`Rat`); pandas timestamps are modelled by a calendar
record `DateTime` ordered chronologically.  The date library functions
`pd.to_datetime` / `Timestamp.isoformat`, which are external to the
repository, are modelled on the core ISO-8601 grammar
`YYYY-MM-DD[{T| }HH:MM:SS]` with surrounding whitespace ignored, the way
pandas treats those spellings.
-/

namespace SensorStats

/-- A parsed timestamp, as produced by `pd.to_datetime` (source line 29). -/
structure DateTime where
  year : Nat
  month : Nat
  day : Nat
  hour : Nat
  minute : Nat
  second : Nat
deriving DecidableEq, Repr

/-- Field bounds guaranteed for every timestamp `pd.to_datetime` accepts. -/
def DateTime.Valid (d : DateTime) : Prop :=
  d.year < 10000 ∧ 1 ≤ d.month ∧ d.month ≤ 12 ∧ 1 ≤ d.day ∧ d.day ≤ 31 ∧
    d.hour < 24 ∧ d.minute < 60 ∧ d.second < 60

instance (d : DateTime) : Decidable d.Valid := by
  unfold DateTime.Valid; infer_instance

/-- Injective monotone encoding of a valid timestamp; chronological order
on valid timestamps is the order of this encoding. -/
def DateTime.enc (d : DateTime) : Nat :=
  ((((d.year * 13 + d.month) * 32 + d.day) * 24 + d.hour) * 60 + d.minute) * 60
    + d.second

/-- Pandas ordering of two `Timestamp`s, as compared at source lines 95 and 97. -/
def DateTime.le (a b : DateTime) : Bool := a.enc ≤ b.enc

/-- Python `str.strip()`: drop leading and trailing whitespace. -/
def pyStrip (s : String) : String :=
  String.mk
    (((s.data.dropWhile Char.isWhitespace).reverse.dropWhile
        Char.isWhitespace).reverse)

/-- Python `str.lower()`: lowercase every character. -/
def pyLower (s : String) : String := String.mk (s.data.map Char.toLower)

/-- The decimal digit character for `n % 10`. -/
def digitChar (n : Nat) : Char := Char.ofNat (48 + n % 10)

/-- Numeric value of a digit character. -/
def digitVal (c : Char) : Nat := c.toNat - 48

/-- Is `c` one of the characters `0`–`9`? -/
def isDigit (c : Char) : Bool := 48 ≤ c.toNat && c.toNat ≤ 57

/-- Two-digit decimal decoding. -/
def decode2 (a b : Char) : Nat := digitVal a * 10 + digitVal b

/-- Four-digit decimal decoding. -/
def decode4 (a b c d : Char) : Nat :=
  ((digitVal a * 10 + digitVal b) * 10 + digitVal c) * 10 + digitVal d

/-- Character list of `Timestamp.isoformat()` (source line 82):
zero-padded `YYYY-MM-DDTHH:MM:SS`. -/
def DateTime.isoChars (d : DateTime) : List Char :=
  [digitChar (d.year / 1000), digitChar (d.year / 100 % 10),
   digitChar (d.year / 10 % 10), digitChar (d.year % 10), '-',
   digitChar (d.month / 10), digitChar (d.month % 10), '-',
   digitChar (d.day / 10), digitChar (d.day % 10), 'T',
   digitChar (d.hour / 10), digitChar (d.hour % 10), ':',
   digitChar (d.minute / 10), digitChar (d.minute % 10), ':',
   digitChar (d.second / 10), digitChar (d.second % 10)]

/-- ISO serialization `Timestamp.isoformat()` as called at source line 82. -/
def DateTime.isoformat (d : DateTime) : String := String.mk d.isoChars

/-- Range-check the calendar fields, as `pd.to_datetime` does before
constructing a `Timestamp`. -/
def mkDateTime (y mo dd h mi s : Nat) : Option DateTime :=
  if y < 10000 ∧ 1 ≤ mo ∧ mo ≤ 12 ∧ 1 ≤ dd ∧ dd ≤ 31 ∧ h < 24 ∧ mi < 60 ∧
      s < 60 then
    some ⟨y, mo, dd, h, mi, s⟩
  else none

/-- Modelled from the spec: the date grammar of `pd.to_datetime` (external
to the repository) on the core ISO spellings `YYYY-MM-DD` and
`YYYY-MM-DD{T| }HH:MM:SS`; a date-only spelling means midnight. -/
def parseChars : List Char → Option DateTime
  | [y1, y2, y3, y4, '-', m1, m2, '-', d1, d2] =>
    if [y1, y2, y3, y4, m1, m2, d1, d2].all isDigit then
      mkDateTime (decode4 y1 y2 y3 y4) (decode2 m1 m2) (decode2 d1 d2) 0 0 0
    else none
  | [y1, y2, y3, y4, '-', m1, m2, '-', d1, d2, sep,
     h1, h2, ':', n1, n2, ':', s1, s2] =>
    if (sep = 'T' || sep = ' ') &&
        [y1, y2, y3, y4, m1, m2, d1, d2, h1, h2, n1, n2, s1, s2].all isDigit then
      mkDateTime (decode4 y1 y2 y3 y4) (decode2 m1 m2) (decode2 d1 d2)
        (decode2 h1 h2) (decode2 n1 n2) (decode2 s1 s2)
    else none
  | _ => none

/-- Modelled from the spec: `pd.to_datetime` on a string (source line 29),
ignoring surrounding whitespace. -/
def toDatetime (s : String) : Option DateTime := parseChars (pyStrip s).data

/-- The function `_parse_date` (source lines 25–31): `None` passes through, otherwise
parse or raise `ValueError` carrying the raw string. -/
def parseDate (s : Option String) : Except String (Option DateTime) :=
  match s with
  | none => .ok none
  | some str =>
    match toDatetime str with
    | some d => .ok (some d)
    | none => .error ("Invalid date format: " ++ str)

/-- One row of the loaded dataframe `_df`: columns
`timestamp, location, sensor, value` (source lines 55–62). -/
structure Reading where
  timestamp : DateTime
  location : String
  sensor : String
  value : Rat
deriving DecidableEq, Repr

/-- The 4-tuple returned by `_make_cache_key` (source lines 33–37); `none`
is Python's `None` marker. -/
def CacheKey : Type :=
  Option String × Option String × Option String × Option String

instance : DecidableEq CacheKey := by
  unfold CacheKey; infer_instance

/-- The function `_make_cache_key` (source lines 33–37). -/
def makeCacheKey (location sensor start_date end_date : Option String) :
    CacheKey :=
  (location.map (fun l => pyLower (pyStrip l)),
   sensor.map (fun s => pyLower (pyStrip s)),
   start_date, end_date)

/-- The dict returned by `_compute_stats_from_df` (source lines 39–46);
`avg`, `min`, `max` are `None` exactly when written as `None` there. -/
structure AggregateResult where
  count : Nat
  avg : Option Rat
  min : Option Rat
  max : Option Rat
deriving DecidableEq, Repr

/-- Column minimum `df["value"].min()` on a nonempty column. -/
def colMin (x : Rat) (xs : List Rat) : Rat := xs.foldl min x

/-- Column maximum `df["value"].max()` on a nonempty column. -/
def colMax (x : Rat) (xs : List Rat) : Rat := xs.foldl max x

/-- The function `_compute_stats_from_df` (source lines 39–46). -/
def computeStatsFromDf (df : List Reading) : AggregateResult :=
  match df with
  | [] => ⟨0, none, none, none⟩
  | r :: rest =>
    let vals := (r :: rest).map Reading.value
    ⟨(r :: rest).length,
     some (vals.sum / ((r :: rest).length : Rat)),
     some (colMin r.value (rest.map Reading.value)),
     some (colMax r.value (rest.map Reading.value))⟩

/-- The four sequential dataframe filters of `stats`
(source lines 89–97). -/
def filterRows (df : List Reading) (location sensor : Option String)
    (sd ed : Option DateTime) : List Reading :=
  let df1 := match location with
    | none => df
    | some l => df.filter (fun r => r.location == pyLower (pyStrip l))
  let df2 := match sensor with
    | none => df1
    | some s => df1.filter (fun r => r.sensor == pyLower (pyStrip s))
  let df3 := match sd with
    | none => df2
    | some d => df2.filter (fun r => DateTime.le d r.timestamp)
  match ed with
  | none => df3
  | some d => df3.filter (fun r => DateTime.le r.timestamp d)

/-- The module-level cache `_cache` (source line 22): a dict from cache
key to stats dict, modelled as an association list, most recent first. -/
def Cache : Type := List (CacheKey × AggregateResult)

/-- Python dict lookup `_cache[key]` / `key in _cache`
(source lines 85–87). -/
def cacheGet (c : Cache) (k : CacheKey) : Option AggregateResult :=
  match c with
  | [] => none
  | (k2, v) :: rest => if k2 = k then some v else cacheGet rest k

/-- Python dict store `_cache[key] = stats_obj` (source line 102). -/
def cachePut (c : Cache) (k : CacheKey) (v : AggregateResult) : Cache :=
  (k, v) :: c

/-- The module-level mutable state: `_df` (`None` before `load_data` runs)
and `_cache` (source lines 21–22). -/
structure ServerState where
  df : Option (List Reading)
  cache : Cache

/-- The `X-Cache` response header value (source lines 86 and 104). -/
inductive CacheFlag
  | hit
  | miss
deriving DecidableEq, Repr

/-- An `HTTPException` (source lines 75 and 80). -/
structure HTTPError where
  status_code : Nat
  detail : String
deriving DecidableEq, Repr

/-- The `/stats` endpoint handler (source lines 64–105), as a function
from the module state and the four query parameters to the outcome and
the resulting module state. -/
def stats (st : ServerState)
    (location sensor start_date end_date : Option String) :
    Except HTTPError (AggregateResult × CacheFlag) × ServerState :=
  match st.df with
  | none => (.error ⟨500, "Data not loaded"⟩, st)
  | some df =>
    match parseDate start_date with
    | .error e => (.error ⟨400, e⟩, st)
    | .ok sd =>
      match parseDate end_date with
      | .error e => (.error ⟨400, e⟩, st)
      | .ok ed =>
        let key := makeCacheKey location sensor
          (sd.map DateTime.isoformat) (ed.map DateTime.isoformat)
        match cacheGet st.cache key with
        | some cached => (.ok (cached, .hit), st)
        | none =>
          let stats_obj := computeStatsFromDf (filterRows df location sensor sd ed)
          (.ok (stats_obj, .miss),
           { st with cache := cachePut st.cache key stats_obj })

/-- The spec's conjunctive row-match predicate (§4.2): a row matches iff
every present filter holds, string equality against the trimmed-lowercased
filter, both date bounds inclusive. -/
def rowMatches (location sensor : Option String) (sd ed : Option DateTime)
    (r : Reading) : Bool :=
  (match location with
   | none => true
   | some l => r.location == pyLower (pyStrip l)) &&
  (match sensor with
   | none => true
   | some s => r.sensor == pyLower (pyStrip s)) &&
  (match sd with
   | none => true
   | some d => DateTime.le d r.timestamp) &&
  (match ed with
   | none => true
   | some d => DateTime.le r.timestamp d)

/-- The spec's query normalization (§4.1), as the standalone composition
of date parsing, ISO serialization and `_make_cache_key` that `stats`
performs at source lines 77–82. -/
def normalizeFilter (location sensor start_date end_date : Option String) :
    Except String CacheKey :=
  match parseDate start_date with
  | .error e => .error e
  | .ok sd =>
    match parseDate end_date with
    | .error e => .error e
    | .ok ed =>
      .ok (makeCacheKey location sensor
        (sd.map DateTime.isoformat) (ed.map DateTime.isoformat))

/-- The cache key `stats` derives at source line 82 for already-parsed
dates. -/
def normKey (loc sen : Option String) (sd ed : Option DateTime) : CacheKey :=
  makeCacheKey loc sen (sd.map DateTime.isoformat) (ed.map DateTime.isoformat)

/-- Concrete fixture row (for witness instances). -/
def w1 : Reading := ⟨⟨2020, 1, 1, 0, 0, 0⟩, "delhi", "temp", 1⟩

/-- Concrete fixture row (for witness instances). -/
def w2 : Reading := ⟨⟨2020, 1, 2, 0, 0, 0⟩, "delhi", "temp", 3⟩

/-- Concrete fixture row (for witness instances). -/
def w3 : Reading := ⟨⟨2020, 1, 3, 0, 0, 0⟩, "mumbai", "pm25", 5⟩

/-- Concrete fixture dataset (for witness instances). -/
def wdf : List Reading := [w1, w2, w3]

/-! ### Helper lemmas -/

theorem digitChar_inj :
    ∀ a, a < 10 → ∀ b, b < 10 → digitChar a = digitChar b → a = b := by
  decide

theorem mkDateTime_valid {y mo dd h mi s : Nat} {d : DateTime}
    (hd : mkDateTime y mo dd h mi s = some d) : d.Valid := by
  unfold mkDateTime at hd
  split at hd
  · rename_i hcond
    simp only [Option.some.injEq] at hd
    subst hd
    exact hcond
  · simp at hd

theorem parseChars_valid {cs : List Char} {d : DateTime}
    (h : parseChars cs = some d) : d.Valid := by
  rw [parseChars.eq_def] at h
  split at h
  · split at h
    · exact mkDateTime_valid h
    · simp at h
  · split at h
    · exact mkDateTime_valid h
    · simp at h
  · simp at h

theorem toDatetime_valid {s : String} {d : DateTime}
    (h : toDatetime s = some d) : d.Valid :=
  parseChars_valid h

theorem parseDate_valid {s : Option String} {d : DateTime}
    (h : parseDate s = .ok (some d)) : d.Valid := by
  unfold parseDate at h
  match s with
  | none => simp at h
  | some str =>
    simp only at h
    cases hp : toDatetime str with
    | none => rw [hp] at h; simp at h
    | some d2 =>
      rw [hp] at h
      simp only [Except.ok.injEq, Option.some.injEq] at h
      subst h
      exact toDatetime_valid hp

theorem DateTime.isoformat_inj {a b : DateTime} (ha : a.Valid) (hb : b.Valid)
    (h : a.isoformat = b.isoformat) : a = b := by
  obtain ⟨ha1, ha2, ha3, ha4, ha5, ha6, ha7, ha8⟩ := ha
  obtain ⟨hb1, hb2, hb3, hb4, hb5, hb6, hb7, hb8⟩ := hb
  have h2 : a.isoChars = b.isoChars := congrArg String.data h
  simp only [DateTime.isoChars, List.cons.injEq, and_true] at h2
  obtain ⟨e1, e2, e3, e4, _, e5, e6, _, e7, e8, _, e9, e10, _, e11, e12, _,
    e13, e14⟩ := h2
  have y1 := digitChar_inj _ (by omega) _ (by omega) e1
  have y2 := digitChar_inj _ (by omega) _ (by omega) e2
  have y3 := digitChar_inj _ (by omega) _ (by omega) e3
  have y4 := digitChar_inj _ (by omega) _ (by omega) e4
  have m1 := digitChar_inj _ (by omega) _ (by omega) e5
  have m2 := digitChar_inj _ (by omega) _ (by omega) e6
  have d1 := digitChar_inj _ (by omega) _ (by omega) e7
  have d2 := digitChar_inj _ (by omega) _ (by omega) e8
  have h1 := digitChar_inj _ (by omega) _ (by omega) e9
  have h2 := digitChar_inj _ (by omega) _ (by omega) e10
  have n1 := digitChar_inj _ (by omega) _ (by omega) e11
  have n2 := digitChar_inj _ (by omega) _ (by omega) e12
  have s1 := digitChar_inj _ (by omega) _ (by omega) e13
  have s2 := digitChar_inj _ (by omega) _ (by omega) e14
  have hy : a.year = b.year := by omega
  have hm : a.month = b.month := by omega
  have hd : a.day = b.day := by omega
  have hh : a.hour = b.hour := by omega
  have hn : a.minute = b.minute := by omega
  have hs : a.second = b.second := by omega
  calc a = ⟨a.year, a.month, a.day, a.hour, a.minute, a.second⟩ := rfl
    _ = ⟨b.year, b.month, b.day, b.hour, b.minute, b.second⟩ := by
          rw [hy, hm, hd, hh, hn, hs]
    _ = b := rfl

theorem filterRows_eq_filter (df : List Reading) (loc sen : Option String)
    (sd ed : Option DateTime) :
    filterRows df loc sen sd ed = df.filter (rowMatches loc sen sd ed) := by
  unfold filterRows rowMatches
  cases loc <;> cases sen <;> cases sd <;> cases ed <;>
    simp [List.filter_filter, Bool.and_comm, Bool.and_left_comm, Bool.and_assoc]

theorem colMin_le (x : Rat) (xs : List Rat) :
    colMin x xs ≤ x ∧ ∀ y ∈ xs, colMin x xs ≤ y := by
  unfold colMin
  induction xs generalizing x with
  | nil => simp
  | cons a rest ih =>
    simp only [List.foldl_cons, List.mem_cons]
    refine ⟨le_trans (ih (min x a)).1 (min_le_left x a), ?_⟩
    rintro y (rfl | hy)
    · exact le_trans (ih (min x y)).1 (min_le_right x y)
    · exact (ih (min x a)).2 y hy

theorem colMin_mem (x : Rat) (xs : List Rat) :
    colMin x xs = x ∨ colMin x xs ∈ xs := by
  unfold colMin
  induction xs generalizing x with
  | nil => simp
  | cons a rest ih =>
    simp only [List.foldl_cons, List.mem_cons]
    rcases ih (min x a) with h | h
    · rcases min_cases x a with ⟨he, _⟩ | ⟨he, _⟩
      · exact Or.inl (h.trans he)
      · exact Or.inr (Or.inl (h.trans he))
    · exact Or.inr (Or.inr h)

theorem colMax_le (x : Rat) (xs : List Rat) :
    x ≤ colMax x xs ∧ ∀ y ∈ xs, y ≤ colMax x xs := by
  unfold colMax
  induction xs generalizing x with
  | nil => simp
  | cons a rest ih =>
    simp only [List.foldl_cons, List.mem_cons]
    refine ⟨le_trans (le_max_left x a) (ih (max x a)).1, ?_⟩
    rintro y (rfl | hy)
    · exact le_trans (le_max_right x y) (ih (max x y)).1
    · exact (ih (max x a)).2 y hy

theorem colMax_mem (x : Rat) (xs : List Rat) :
    colMax x xs = x ∨ colMax x xs ∈ xs := by
  unfold colMax
  induction xs generalizing x with
  | nil => simp
  | cons a rest ih =>
    simp only [List.foldl_cons, List.mem_cons]
    rcases ih (max x a) with h | h
    · rcases max_cases x a with ⟨he, _⟩ | ⟨he, _⟩
      · exact Or.inl (h.trans he)
      · exact Or.inr (Or.inl (h.trans he))
    · exact Or.inr (Or.inr h)

theorem stats_eq_unloaded (st : ServerState) (loc sen sdS edS : Option String)
    (hdf : st.df = none) :
    stats st loc sen sdS edS = (.error ⟨500, "Data not loaded"⟩, st) := by
  unfold stats
  rw [hdf]

theorem stats_eq_err_start (st : ServerState) (df : List Reading)
    (loc sen sdS edS : Option String) (e : String)
    (hdf : st.df = some df) (hsd : parseDate sdS = .error e) :
    stats st loc sen sdS edS = (.error ⟨400, e⟩, st) := by
  unfold stats
  rw [hdf, hsd]

theorem stats_eq_err_end (st : ServerState) (df : List Reading)
    (loc sen sdS edS : Option String) (sd : Option DateTime) (e : String)
    (hdf : st.df = some df) (hsd : parseDate sdS = .ok sd)
    (hed : parseDate edS = .error e) :
    stats st loc sen sdS edS = (.error ⟨400, e⟩, st) := by
  unfold stats
  rw [hdf, hsd, hed]

theorem stats_eq_hit (st : ServerState) (df : List Reading)
    (loc sen sdS edS : Option String) (sd ed : Option DateTime)
    (r : AggregateResult)
    (hdf : st.df = some df) (hsd : parseDate sdS = .ok sd)
    (hed : parseDate edS = .ok ed)
    (hget : cacheGet st.cache (normKey loc sen sd ed) = some r) :
    stats st loc sen sdS edS = (.ok (r, .hit), st) := by
  unfold stats
  rw [hdf, hsd, hed]
  simp only [normKey] at hget
  simp only [hget]

theorem stats_eq_miss (st : ServerState) (df : List Reading)
    (loc sen sdS edS : Option String) (sd ed : Option DateTime)
    (hdf : st.df = some df) (hsd : parseDate sdS = .ok sd)
    (hed : parseDate edS = .ok ed)
    (hget : cacheGet st.cache (normKey loc sen sd ed) = none) :
    stats st loc sen sdS edS =
      (.ok (computeStatsFromDf (filterRows df loc sen sd ed), .miss),
       ⟨st.df, cachePut st.cache (normKey loc sen sd ed)
          (computeStatsFromDf (filterRows df loc sen sd ed))⟩) := by
  unfold stats
  rw [hdf, hsd, hed]
  simp only [normKey] at hget
  simp only [hget, normKey]

theorem stats_ok_inv (st st' : ServerState) (loc sen sdS edS : Option String)
    (res : AggregateResult) (flag : CacheFlag)
    (h : stats st loc sen sdS edS = (.ok (res, flag), st')) :
    ∃ df sd ed, st.df = some df ∧ parseDate sdS = .ok sd ∧
      parseDate edS = .ok ed ∧
      ((cacheGet st.cache (normKey loc sen sd ed) = some res ∧
          flag = .hit ∧ st' = st) ∨
       (cacheGet st.cache (normKey loc sen sd ed) = none ∧ flag = .miss ∧
          res = computeStatsFromDf (filterRows df loc sen sd ed) ∧
          st' = ⟨st.df, cachePut st.cache (normKey loc sen sd ed) res⟩)) := by
  cases hdf : st.df with
  | none => rw [stats_eq_unloaded st loc sen sdS edS hdf] at h; simp at h
  | some df =>
    cases hsd : parseDate sdS with
    | error e => rw [stats_eq_err_start st df loc sen sdS edS e hdf hsd] at h; simp at h
    | ok sd =>
      cases hed : parseDate edS with
      | error e =>
        rw [stats_eq_err_end st df loc sen sdS edS sd e hdf hsd hed] at h
        simp at h
      | ok ed =>
        cases hget : cacheGet st.cache (normKey loc sen sd ed) with
        | some r =>
          rw [stats_eq_hit st df loc sen sdS edS sd ed r hdf hsd hed hget] at h
          simp only [Prod.mk.injEq, Except.ok.injEq] at h
          obtain ⟨⟨hr, hf⟩, hst⟩ := h
          subst hr; subst hf; subst hst
          exact ⟨df, sd, ed, rfl, rfl, rfl, Or.inl ⟨hget, rfl, rfl⟩⟩
        | none =>
          rw [stats_eq_miss st df loc sen sdS edS sd ed hdf hsd hed hget] at h
          simp only [Prod.mk.injEq, Except.ok.injEq] at h
          obtain ⟨⟨hr, hf⟩, hst⟩ := h
          subst hr; subst hf
          rw [hdf] at hst
          exact ⟨df, sd, ed, rfl, rfl, rfl, Or.inr ⟨hget, rfl, rfl, hst.symm⟩⟩

theorem cacheGet_cachePut_preserve {c : Cache} {k2 k : CacheKey}
    {v2 v : AggregateResult} (hne : cacheGet c k2 = none)
    (h : cacheGet c k = some v) : cacheGet (cachePut c k2 v2) k = some v := by
  unfold cachePut cacheGet
  split
  · rename_i he
    rw [he] at hne
    rw [hne] at h
    cases h
  · exact h

theorem cacheGet_cachePut_self (c : Cache) (k : CacheKey)
    (v : AggregateResult) : cacheGet (cachePut c k v) k = some v := by
  unfold cachePut cacheGet
  simp

theorem parseDate_valid_of_some {sS : Option String} {sd : Option DateTime}
    (h : parseDate sS = .ok sd) : ∀ d, sd = some d → d.Valid := by
  intro d hd
  subst hd
  exact parseDate_valid h

theorem isoOpt_inj {s1 s2 : Option DateTime}
    (v1 : ∀ d, s1 = some d → d.Valid) (v2 : ∀ d, s2 = some d → d.Valid)
    (h : s1.map DateTime.isoformat = s2.map DateTime.isoformat) :
    s1 = s2 := by
  cases s1 with
  | none => cases s2 with
    | none => rfl
    | some d2 => simp at h
  | some d1 => cases s2 with
    | none => simp at h
    | some d2 =>
      simp only [Option.map, Option.some.injEq] at h ⊢
      exact DateTime.isoformat_inj (v1 d1 rfl) (v2 d2 rfl) h

theorem parseDate_error_inv {sS : Option String} {e : String}
    (h : parseDate sS = .error e) :
    ∃ s, sS = some s ∧ toDatetime s = none ∧
      e = "Invalid date format: " ++ s := by
  cases sS with
  | none => simp [parseDate] at h
  | some s =>
    simp only [parseDate] at h
    cases ht : toDatetime s with
    | some d => rw [ht] at h; simp at h
    | none =>
      rw [ht] at h
      simp only [Except.error.injEq] at h
      exact ⟨s, rfl, ht, h.symm⟩

theorem parseDate_error_of_bad {s : String} (h : toDatetime s = none) :
    parseDate (some s) = .error ("Invalid date format: " ++ s) := by
  simp only [parseDate]
  rw [h]

theorem stats_insert_key (st : ServerState) (loc sen sdS edS : Option String)
    (k : CacheKey) (r : AggregateResult)
    (h : (stats st loc sen sdS edS).2.cache = cachePut st.cache k r) :
    normalizeFilter loc sen sdS edS = .ok k := by
  cases hdf : st.df with
  | none =>
    rw [stats_eq_unloaded st loc sen sdS edS hdf] at h
    have := congrArg List.length h
    simp [cachePut] at this
  | some df =>
    cases hsd : parseDate sdS with
    | error e =>
      rw [stats_eq_err_start st df loc sen sdS edS e hdf hsd] at h
      have := congrArg List.length h
      simp [cachePut] at this
    | ok sd =>
      cases hed : parseDate edS with
      | error e =>
        rw [stats_eq_err_end st df loc sen sdS edS sd e hdf hsd hed] at h
        have := congrArg List.length h
        simp [cachePut] at this
      | ok ed =>
        cases hget : cacheGet st.cache (normKey loc sen sd ed) with
        | some r2 =>
          rw [stats_eq_hit st df loc sen sdS edS sd ed r2 hdf hsd hed hget]
            at h
          have := congrArg List.length h
          simp [cachePut] at this
        | none =>
          rw [stats_eq_miss st df loc sen sdS edS sd ed hdf hsd hed hget] at h
          have h2 : cachePut st.cache (normKey loc sen sd ed)
              (computeStatsFromDf (filterRows df loc sen sd ed)) =
              cachePut st.cache k r := h
          injection h2 with hpair hrest
          unfold normalizeFilter
          rw [hsd, hed]
          simp only [Except.ok.injEq]
          exact congrArg Prod.fst hpair

/-! ### Claim theorems -/

/-- C2: a query matching zero rows returns `count = 0` and `avg`, `min`,
`max` all explicitly absent (`none`); conversely `avg`, `min`, `max` are
present whenever `count > 0`. -/
theorem stats_empty_result_semantics (df : List Reading)
    (loc sen sdS edS : Option String) (sd ed : Option DateTime)
    (r : AggregateResult) (flag : CacheFlag) (st2 : ServerState)
    (hsd : parseDate sdS = .ok sd) (hed : parseDate edS = .ok ed)
    (hrun : stats ⟨some df, []⟩ loc sen sdS edS = (.ok (r, flag), st2)) :
    (r.count = 0 ↔ (df.filter (rowMatches loc sen sd ed)).length = 0) ∧
    (r.count = 0 → r.avg = none ∧ r.min = none ∧ r.max = none) ∧
    (0 < r.count → r.avg.isSome ∧ r.min.isSome ∧ r.max.isSome) := by
  rw [stats_eq_miss ⟨some df, []⟩ df loc sen sdS edS sd ed rfl hsd hed rfl]
    at hrun
  simp only [Prod.mk.injEq, Except.ok.injEq] at hrun
  obtain ⟨⟨hr, _⟩, _⟩ := hrun
  subst hr
  rw [← filterRows_eq_filter]
  cases hrows : filterRows df loc sen sd ed with
  | nil => simp [computeStatsFromDf]
  | cons a rest => simp [computeStatsFromDf]

/-- C7: a query never changes the loaded dataset, and the cache only
grows: every entry present before the query is still present, with the
same value, afterwards. -/
theorem stats_preserves_state (st : ServerState)
    (loc sen sdS edS : Option String) :
    (stats st loc sen sdS edS).2.df = st.df ∧
    ∀ k v, cacheGet st.cache k = some v →
      cacheGet (stats st loc sen sdS edS).2.cache k = some v := by
  cases hdf : st.df with
  | none =>
    rw [stats_eq_unloaded st loc sen sdS edS hdf]
    exact ⟨hdf, fun k v h => h⟩
  | some df =>
    cases hsd : parseDate sdS with
    | error e =>
      rw [stats_eq_err_start st df loc sen sdS edS e hdf hsd]
      exact ⟨hdf, fun k v h => h⟩
    | ok sd =>
      cases hed : parseDate edS with
      | error e =>
        rw [stats_eq_err_end st df loc sen sdS edS sd e hdf hsd hed]
        exact ⟨hdf, fun k v h => h⟩
      | ok ed =>
        cases hget : cacheGet st.cache (normKey loc sen sd ed) with
        | some r =>
          rw [stats_eq_hit st df loc sen sdS edS sd ed r hdf hsd hed hget]
          exact ⟨hdf, fun k v h => h⟩
        | none =>
          rw [stats_eq_miss st df loc sen sdS edS sd ed hdf hsd hed hget]
          exact ⟨hdf, fun k v h => cacheGet_cachePut_preserve hget h⟩

/-- C8: a request arriving before the dataset loads fails with the
`DataUnavailable` error (HTTP 500, detail `Data not loaded`), leaving the
state untouched; the identical request against a loaded dataset (same
cache) succeeds whenever its dates parse. -/
theorem stats_data_unavailable (st : ServerState)
    (loc sen sdS edS : Option String) (hdf : st.df = none) :
    stats st loc sen sdS edS = (.error ⟨500, "Data not loaded"⟩, st) ∧
    ∀ df sd ed, parseDate sdS = .ok sd → parseDate edS = .ok ed →
      ∃ r flag st2,
        stats ⟨some df, st.cache⟩ loc sen sdS edS = (.ok (r, flag), st2) := by
  refine ⟨stats_eq_unloaded st loc sen sdS edS hdf, ?_⟩
  intro df sd ed hsd hed
  cases hget : cacheGet st.cache (normKey loc sen sd ed) with
  | some r =>
    exact ⟨r, .hit, ⟨some df, st.cache⟩,
      stats_eq_hit ⟨some df, st.cache⟩ df loc sen sdS edS sd ed r rfl hsd hed
        hget⟩
  | none =>
    exact ⟨computeStatsFromDf (filterRows df loc sen sd ed), .miss, _,
      stats_eq_miss ⟨some df, st.cache⟩ df loc sen sdS edS sd ed rfl hsd hed
        hget⟩

/-- C9: an empty or whitespace-only location/sensor filter is treated as
present: its cache-key component is `some ("")` (distinct from the absent
marker `none`) and rows are filtered by equality with the empty string. -/
theorem empty_string_filter_is_present (ws : String) (hws : pyStrip ws = "")
    (df : List Reading) (sen sdS edS : Option String) :
    (makeCacheKey (some ws) sen sdS edS).1 = some ("") ∧
    (makeCacheKey (some ws) sen sdS edS).1 ≠ none ∧
    filterRows df (some ws) none none none =
      df.filter (fun r => r.location == "") ∧
    (makeCacheKey sen (some ws) sdS edS).2.1 = some ("") ∧
    filterRows df none (some ws) none none =
      df.filter (fun r => r.sensor == "") := by
  have hnorm : pyLower (pyStrip ws) = "" := by rw [hws]; decide
  refine ⟨?_, ?_, ?_, ?_, ?_⟩
  · simp [makeCacheKey, hnorm]
  · simp [makeCacheKey]
  · show df.filter (fun r => r.location == pyLower (pyStrip ws)) =
        df.filter (fun r => r.location == "")
    rw [hnorm]
  · simp [makeCacheKey, hnorm]
  · show df.filter (fun r => r.sensor == pyLower (pyStrip ws)) =
        df.filter (fun r => r.sensor == "")
    rw [hnorm]

/-- C10: a query whose parsed start date is strictly later than its
parsed end date succeeds and returns the empty result
`count = 0, avg = min = max = none`. -/
theorem inverted_range_returns_empty (st : ServerState) (df : List Reading)
    (loc sen sdS edS : Option String) (sd ed : DateTime)
    (hdf : st.df = some df) (hfresh : st.cache = [])
    (hsd : parseDate sdS = .ok (some sd)) (hed : parseDate edS = .ok (some ed))
    (hlt : ed.enc < sd.enc) :
    (stats st loc sen sdS edS).1 = .ok (⟨0, none, none, none⟩, .miss) := by
  have hget : cacheGet st.cache (normKey loc sen (some sd) (some ed)) = none := by
    rw [hfresh]; rfl
  rw [stats_eq_miss st df loc sen sdS edS (some sd) (some ed) hdf hsd hed hget]
  have hnil : filterRows df loc sen (some sd) (some ed) = [] := by
    rw [filterRows_eq_filter]
    rw [List.filter_eq_nil_iff]
    intro r _
    simp only [rowMatches, DateTime.le, Bool.and_eq_true, decide_eq_true_eq,
      not_and]
    rintro ⟨-, h1⟩ h2
    omega
  rw [hnil]
  rfl

/-- C1: on a fresh cache, `/stats` returns `count` equal to the number of
rows satisfying the conjunction of the present filters (trimmed-lowercased
string equality, inclusive date bounds), and when that count is positive,
`avg` is the arithmetic mean and `min`/`max` the minimum/maximum of
`value` over exactly those rows. -/
theorem stats_aggregation_correct (df : List Reading)
    (loc sen sdS edS : Option String) (sd ed : Option DateTime)
    (hsd : parseDate sdS = .ok sd) (hed : parseDate edS = .ok ed) :
    ∃ r st2, stats ⟨some df, []⟩ loc sen sdS edS = (.ok (r, .miss), st2) ∧
      r.count = (df.filter (rowMatches loc sen sd ed)).length ∧
      (0 < (df.filter (rowMatches loc sen sd ed)).length →
        r.avg = some (((df.filter (rowMatches loc sen sd ed)).map
            Reading.value).sum /
          ((df.filter (rowMatches loc sen sd ed)).length : Rat)) ∧
        (∃ m, r.min = some m ∧
          m ∈ (df.filter (rowMatches loc sen sd ed)).map Reading.value ∧
          ∀ v ∈ (df.filter (rowMatches loc sen sd ed)).map Reading.value,
            m ≤ v) ∧
        (∃ m, r.max = some m ∧
          m ∈ (df.filter (rowMatches loc sen sd ed)).map Reading.value ∧
          ∀ v ∈ (df.filter (rowMatches loc sen sd ed)).map Reading.value,
            v ≤ m)) := by
  refine ⟨computeStatsFromDf (filterRows df loc sen sd ed), _,
    stats_eq_miss ⟨some df, []⟩ df loc sen sdS edS sd ed rfl hsd hed rfl,
    ?_, ?_⟩
  · rw [filterRows_eq_filter]
    cases df.filter (rowMatches loc sen sd ed) with
    | nil => rfl
    | cons a rest => rfl
  · rw [filterRows_eq_filter]
    cases hrows : df.filter (rowMatches loc sen sd ed) with
    | nil => intro h; simp at h
    | cons a rest =>
      intro _
      refine ⟨rfl, ?_, ?_⟩
      · refine ⟨colMin a.value (rest.map Reading.value), rfl, ?_, ?_⟩
        · rcases colMin_mem a.value (rest.map Reading.value) with h | h
          · simp [h]
          · simp only [List.map_cons, List.mem_cons]
            exact Or.inr h
        · intro v hv
          simp only [List.map_cons, List.mem_cons] at hv
          rcases hv with rfl | hv
          · exact (colMin_le a.value (rest.map Reading.value)).1
          · exact (colMin_le a.value (rest.map Reading.value)).2 v hv
      · refine ⟨colMax a.value (rest.map Reading.value), rfl, ?_, ?_⟩
        · rcases colMax_mem a.value (rest.map Reading.value) with h | h
          · simp [h]
          · simp only [List.map_cons, List.mem_cons]
            exact Or.inr h
        · intro v hv
          simp only [List.map_cons, List.mem_cons] at hv
          rcases hv with rfl | hv
          · exact (colMax_le a.value (rest.map Reading.value)).1
          · exact (colMax_le a.value (rest.map Reading.value)).2 v hv

/-- C3: two filters with valid dates produce an identical cache key iff
they are semantically identical after normalization: equal
trimmed-lowercased location and sensor components, and equal parsed
start/end instants (so spellings of the same instant collapse, and a
difference in any one dimension, including absent versus present, gives
different keys). -/
theorem cacheKey_eq_iff (loc1 sen1 loc2 sen2 : Option String)
    (sd1S ed1S sd2S ed2S : Option String) (sd1 ed1 sd2 ed2 : Option DateTime)
    (h1 : parseDate sd1S = .ok sd1) (h2 : parseDate ed1S = .ok ed1)
    (h3 : parseDate sd2S = .ok sd2) (h4 : parseDate ed2S = .ok ed2) :
    normKey loc1 sen1 sd1 ed1 = normKey loc2 sen2 sd2 ed2 ↔
      (loc1.map (fun l => pyLower (pyStrip l)) =
         loc2.map (fun l => pyLower (pyStrip l)) ∧
       sen1.map (fun s => pyLower (pyStrip s)) =
         sen2.map (fun s => pyLower (pyStrip s)) ∧
       sd1 = sd2 ∧ ed1 = ed2) := by
  unfold normKey makeCacheKey
  constructor
  · intro h
    have hl : loc1.map (fun l => pyLower (pyStrip l)) =
        loc2.map (fun l => pyLower (pyStrip l)) := congrArg Prod.fst h
    have hr1 := congrArg Prod.snd h
    have hs : sen1.map (fun s => pyLower (pyStrip s)) =
        sen2.map (fun s => pyLower (pyStrip s)) := congrArg Prod.fst hr1
    have hr2 := congrArg Prod.snd hr1
    have hsd : sd1.map DateTime.isoformat = sd2.map DateTime.isoformat :=
      congrArg Prod.fst hr2
    have hed : ed1.map DateTime.isoformat = ed2.map DateTime.isoformat :=
      congrArg Prod.snd hr2
    refine ⟨hl, hs, ?_, ?_⟩
    · exact isoOpt_inj (parseDate_valid_of_some h1)
        (parseDate_valid_of_some h3) hsd
    · exact isoOpt_inj (parseDate_valid_of_some h2)
        (parseDate_valid_of_some h4) hed
  · intro h
    obtain ⟨hl, hs, hsd, hed⟩ := h
    rw [hl, hs, hsd, hed]

/-- C4: issuing the same query twice in a row yields the identical
result both times — the second call is a `CACHE_HIT` returning exactly
the first call's result with the state unchanged — and on a fresh cache
the first call is a `CACHE_MISS`. -/
theorem stats_idempotent (st st2 : ServerState)
    (loc sen sdS edS : Option String) (res : AggregateResult)
    (flag : CacheFlag)
    (h : stats st loc sen sdS edS = (.ok (res, flag), st2)) :
    stats st2 loc sen sdS edS = (.ok (res, .hit), st2) ∧
    (st.cache = [] → flag = .miss) := by
  obtain ⟨df, sd, ed, hdf, hsd, hed, hcase⟩ :=
    stats_ok_inv st st2 loc sen sdS edS res flag h
  rcases hcase with ⟨hget, hflag, hst⟩ | ⟨hget, hflag, hres, hst⟩
  · refine ⟨?_, ?_⟩
    · rw [hst]
      exact stats_eq_hit st df loc sen sdS edS sd ed res hdf hsd hed hget
    · intro hc
      rw [hc] at hget
      cases hget
  · subst hst
    constructor
    · refine stats_eq_hit _ df loc sen sdS edS sd ed res hdf hsd hed ?_
      exact cacheGet_cachePut_self st.cache (normKey loc sen sd ed) res
    · intro _
      exact hflag

/-- C5: a request fails with a `ValidationError` (HTTP 400) exactly when
some supplied date string is unparseable; the error detail carries the
offending raw string, and the state — in particular the cache — is left
unchanged. -/
theorem stats_validation_error (st : ServerState) (df : List Reading)
    (loc sen sdS edS : Option String) (hdf : st.df = some df) :
    (∀ e st2, stats st loc sen sdS edS = (.error e, st2) →
      st2 = st ∧ ∃ s, (sdS = some s ∨ edS = some s) ∧ toDatetime s = none ∧
        e = ⟨400, "Invalid date format: " ++ s⟩) ∧
    (∀ s, ((sdS = some s ∨ edS = some s) ∧ toDatetime s = none) →
      ∃ s2, (sdS = some s2 ∨ edS = some s2) ∧ toDatetime s2 = none ∧
        stats st loc sen sdS edS =
          (.error ⟨400, "Invalid date format: " ++ s2⟩, st)) := by
  constructor
  · intro e st2 h
    cases hsd : parseDate sdS with
    | error e0 =>
      rw [stats_eq_err_start st df loc sen sdS edS e0 hdf hsd] at h
      simp only [Prod.mk.injEq, Except.error.injEq] at h
      obtain ⟨he, hst⟩ := h
      obtain ⟨s, hss, hbad, he0⟩ := parseDate_error_inv hsd
      exact ⟨hst.symm, s, Or.inl hss, hbad, by rw [← he, he0]⟩
    | ok sd =>
      cases hed : parseDate edS with
      | error e0 =>
        rw [stats_eq_err_end st df loc sen sdS edS sd e0 hdf hsd hed] at h
        simp only [Prod.mk.injEq, Except.error.injEq] at h
        obtain ⟨he, hst⟩ := h
        obtain ⟨s, hss, hbad, he0⟩ := parseDate_error_inv hed
        exact ⟨hst.symm, s, Or.inr hss, hbad, by rw [← he, he0]⟩
      | ok ed =>
        cases hget : cacheGet st.cache (normKey loc sen sd ed) with
        | some r =>
          rw [stats_eq_hit st df loc sen sdS edS sd ed r hdf hsd hed hget]
            at h
          simp at h
        | none =>
          rw [stats_eq_miss st df loc sen sdS edS sd ed hdf hsd hed hget]
            at h
          simp at h
  · rintro s ⟨hor, hbad⟩
    rcases hor with hss | hss
    · subst hss
      exact ⟨s, Or.inl rfl, hbad,
        stats_eq_err_start st df loc sen (some s) edS _ hdf
          (parseDate_error_of_bad hbad)⟩
    · subst hss
      cases hsd : parseDate sdS with
      | error e0 =>
        obtain ⟨s0, hss0, hbad0, he0⟩ := parseDate_error_inv hsd
        refine ⟨s0, Or.inl hss0, hbad0, ?_⟩
        rw [← he0]
        exact stats_eq_err_start st df loc sen sdS (some s) e0 hdf hsd
      | ok sd =>
        exact ⟨s, Or.inr rfl, hbad,
          stats_eq_err_end st df loc sen sdS (some s) sd _ hdf hsd
            (parseDate_error_of_bad hbad)⟩

/-- C6: normalization is a pure, deterministic function of the raw
filter: whenever two invocations of `/stats` — against any two server
states, at any two times — cache an entry for the same raw filter, they
derive the same key, and that key is exactly the output of the standalone
normalization function. -/
theorem normalization_pure (loc sen sdS edS : Option String)
    (st1 st2 : ServerState) (k1 k2 : CacheKey) (r1 r2 : AggregateResult)
    (h1 : (stats st1 loc sen sdS edS).2.cache = cachePut st1.cache k1 r1)
    (h2 : (stats st2 loc sen sdS edS).2.cache = cachePut st2.cache k2 r2) :
    k1 = k2 ∧ normalizeFilter loc sen sdS edS = .ok k1 := by
  have hk1 := stats_insert_key st1 loc sen sdS edS k1 r1 h1
  have hk2 := stats_insert_key st2 loc sen sdS edS k2 r2 h2
  rw [hk1] at hk2
  simp only [Except.ok.injEq] at hk2
  exact ⟨hk2, hk1⟩

/-! ### Witness instances -/

/-- Witness for C1 at a concrete dataset and filter. -/
theorem stats_aggregation_correct_witness :
    parseDate (some ("2020-01-01")) = .ok (some ⟨2020, 1, 1, 0, 0, 0⟩) ∧
    ∃ r st2, stats ⟨some wdf, []⟩ (some (" Delhi ")) none (some ("2020-01-01"))
        (some ("2020-01-02")) = (.ok (r, .miss), st2) ∧
      r.count = (wdf.filter (rowMatches (some (" Delhi ")) none
        (some ⟨2020, 1, 1, 0, 0, 0⟩) (some ⟨2020, 1, 2, 0, 0, 0⟩))).length := by
  refine ⟨by rfl, ?_⟩
  obtain ⟨r, st2, heq, hcount, -⟩ :=
    stats_aggregation_correct wdf (some (" Delhi ")) none (some ("2020-01-01"))
      (some ("2020-01-02")) (some ⟨2020, 1, 1, 0, 0, 0⟩)
      (some ⟨2020, 1, 2, 0, 0, 0⟩) (by rfl) (by rfl)
  exact ⟨r, st2, heq, hcount⟩

/-- Witness for C2 at a concrete dataset and the all-absent filter. -/
theorem stats_empty_result_semantics_witness :
    ((computeStatsFromDf (filterRows wdf none none none none)).count = 0 ↔
      (wdf.filter (rowMatches none none none none)).length = 0) ∧
    ((computeStatsFromDf (filterRows wdf none none none none)).count = 0 →
      (computeStatsFromDf (filterRows wdf none none none none)).avg = none ∧
      (computeStatsFromDf (filterRows wdf none none none none)).min = none ∧
      (computeStatsFromDf (filterRows wdf none none none none)).max = none) ∧
    (0 < (computeStatsFromDf (filterRows wdf none none none none)).count →
      (computeStatsFromDf (filterRows wdf none none none none)).avg.isSome ∧
      (computeStatsFromDf (filterRows wdf none none none none)).min.isSome ∧
      (computeStatsFromDf (filterRows wdf none none none none)).max.isSome) :=
  stats_empty_result_semantics wdf none none none none none none
    (computeStatsFromDf (filterRows wdf none none none none)) .miss
    ⟨some wdf, cachePut [] (normKey none none none none)
      (computeStatsFromDf (filterRows wdf none none none none))⟩
    rfl rfl rfl

/-- Witness for C3 at two spellings of the same filter. -/
theorem cacheKey_eq_iff_witness :
    (normKey (some (" Delhi ")) none (some ⟨2020, 1, 1, 0, 0, 0⟩) none =
      normKey (some ("delhi")) none (some ⟨2020, 1, 1, 0, 0, 0⟩) none ↔
      ((some (" Delhi ")).map (fun l => pyLower (pyStrip l)) =
         (some ("delhi")).map (fun l => pyLower (pyStrip l)) ∧
       (none : Option String).map (fun s => pyLower (pyStrip s)) =
         (none : Option String).map (fun s => pyLower (pyStrip s)) ∧
       (some ⟨2020, 1, 1, 0, 0, 0⟩ : Option DateTime) =
         some ⟨2020, 1, 1, 0, 0, 0⟩ ∧
       (none : Option DateTime) = none)) :=
  cacheKey_eq_iff (some (" Delhi ")) none (some ("delhi")) none
    (some ("2020-01-01")) none (some ("2020-01-01T00:00:00")) none
    (some ⟨2020, 1, 1, 0, 0, 0⟩) none (some ⟨2020, 1, 1, 0, 0, 0⟩) none
    rfl rfl rfl rfl

/-- Witness for C4: a concrete first call followed by the second call. -/
theorem stats_idempotent_witness :
    stats ⟨some wdf, cachePut [] (normKey none none none none)
        (computeStatsFromDf (filterRows wdf none none none none))⟩
      none none none none =
      (.ok (computeStatsFromDf (filterRows wdf none none none none), .hit),
       ⟨some wdf, cachePut [] (normKey none none none none)
          (computeStatsFromDf (filterRows wdf none none none none))⟩) ∧
    ((⟨some wdf, []⟩ : ServerState).cache = [] →
      CacheFlag.miss = CacheFlag.miss) :=
  stats_idempotent ⟨some wdf, []⟩
    ⟨some wdf, cachePut [] (normKey none none none none)
      (computeStatsFromDf (filterRows wdf none none none none))⟩
    none none none none
    (computeStatsFromDf (filterRows wdf none none none none)) .miss rfl

/-- Witness for C5 at the concrete bad date string of the spec. -/
theorem stats_validation_error_witness :
    stats ⟨some wdf, []⟩ none none (some ("not-a-date")) none =
      (.error ⟨400, "Invalid date format: " ++ "not-a-date"⟩,
       ⟨some wdf, []⟩) := by
  obtain ⟨s2, hor, hbad, heq⟩ :=
    (stats_validation_error ⟨some wdf, []⟩ wdf none none
      (some ("not-a-date")) none rfl).2 ("not-a-date") ⟨Or.inl rfl, by rfl⟩
  rcases hor with h | h
  · injection h with h2
    subst h2
    exact heq
  · exact Option.noConfusion h

/-- Witness for C6: two insertions from different server states. -/
theorem normalization_pure_witness :
    normKey none none none none = normKey none none none none ∧
    normalizeFilter none none none none = .ok (normKey none none none none) :=
  normalization_pure none none none none ⟨some wdf, []⟩ ⟨some [w1], []⟩
    (normKey none none none none) (normKey none none none none)
    (computeStatsFromDf (filterRows wdf none none none none))
    (computeStatsFromDf (filterRows [w1] none none none none))
    rfl rfl

/-- Witness for C7: a pre-existing cache entry survives a further query. -/
theorem stats_preserves_state_witness :
    (stats ⟨some wdf, cachePut [] (normKey none none none none)
        (computeStatsFromDf (filterRows wdf none none none none))⟩
      (some ("x")) none none none).2.df = some wdf ∧
    cacheGet (stats ⟨some wdf, cachePut [] (normKey none none none none)
        (computeStatsFromDf (filterRows wdf none none none none))⟩
      (some ("x")) none none none).2.cache (normKey none none none none) =
      some (computeStatsFromDf (filterRows wdf none none none none)) := by
  have h := stats_preserves_state
    ⟨some wdf, cachePut [] (normKey none none none none)
      (computeStatsFromDf (filterRows wdf none none none none))⟩
    (some ("x")) none none none
  exact ⟨h.1, h.2 (normKey none none none none)
    (computeStatsFromDf (filterRows wdf none none none none)) (by rfl)⟩

/-- Witness for C8: the not-loaded state, then the loaded one. -/
theorem stats_data_unavailable_witness :
    stats ⟨none, []⟩ none none none none =
      (.error ⟨500, "Data not loaded"⟩, ⟨none, []⟩) ∧
    ∃ r flag st2,
      stats ⟨some wdf, ([] : Cache)⟩ none none none none =
        (.ok (r, flag), st2) := by
  have h := stats_data_unavailable ⟨none, []⟩ none none none none rfl
  exact ⟨h.1, h.2 wdf none none rfl rfl⟩

/-- Witness for C9 at a whitespace-only filter string. -/
theorem empty_string_filter_is_present_witness :
    (makeCacheKey (some ("   ")) (some ("temp")) none none).1 = some ("") ∧
    (makeCacheKey (some ("   ")) (some ("temp")) none none).1 ≠ none ∧
    filterRows wdf (some ("   ")) none none none =
      wdf.filter (fun r => r.location == "") ∧
    (makeCacheKey (some ("temp")) (some ("   ")) none none).2.1 = some ("") ∧
    filterRows wdf none (some ("   ")) none none =
      wdf.filter (fun r => r.sensor == "") :=
  empty_string_filter_is_present ("   ") (by rfl) wdf (some ("temp")) none none

/-- Witness for C10 at a concrete inverted date range. -/
theorem inverted_range_returns_empty_witness :
    (stats ⟨some wdf, []⟩ none none (some ("2020-01-05"))
        (some ("2020-01-02"))).1 = .ok (⟨0, none, none, none⟩, .miss) :=
  inverted_range_returns_empty ⟨some wdf, []⟩ wdf none none
    (some ("2020-01-05")) (some ("2020-01-02"))
    ⟨2020, 1, 5, 0, 0, 0⟩ ⟨2020, 1, 2, 0, 0, 0⟩
    rfl rfl rfl rfl (by decide)

end SensorStats
